import Mathlib

/-!
Verification development for the auscultatio sounds quiz bot.

The definitions below are a shallow embedding of the session engine in
src/bot.py (current revision) and of the weighted selector in
src/question_manager.py (older revision).  Python dicts are modelled as
association lists preserving insertion order; Python list indexing
(including negative indices) is modelled by pyGet; raised exceptions are
modelled by the Except monad.
-/

namespace Ausc

/-- A question of a theme, as validated by validate_theme_data in
src/bot.py: required fields id, text, correct_answer; optional
wrong_answers, files, explanation. -/
structure Question where
  id : Int
  text : String
  correct_answer : String
  wrong_answers : Option (List String)
  files : Option (List String)
  explanation : Option (List String)
deriving DecidableEq, Repr

/-- A loaded theme as stored in QuestionSelector.themes: display name and
the ordered question list. -/
structure ThemeData where
  name : String
  questions : List Question
deriving DecidableEq, Repr

/-- Per-question counters, the value of theme_stats[theme].question_stats[qid]
in src/bot.py (and of stats[user][qid] in src/question_manager.py). -/
structure QStats where
  total : Nat
  correct : Nat
deriving DecidableEq, Repr

/-- Per-theme counters: the value of data.theme_stats[theme] in src/bot.py. -/
structure ThemeStats where
  question_stats : List (String × QStats)
  total : Nat
  correct : Nat
deriving DecidableEq, Repr

/-- The dict returned by UserSession.smart_get_question and stored as
data.last_question. -/
structure LastQuestion where
  question_id : Int
  text : String
  file : Option String
  options : List String
  correct_option : Nat
  theme : String
  theme_name : String
deriving DecidableEq, Repr

/-- The UserSession.data dict of src/bot.py.  Every key may be absent
(the dict starts empty and keys are added by the handlers), so all
fields are optional. -/
structure SessionData where
  user_id : Option Int
  user_name : Option String
  last_update : Option ℚ
  current_theme : Option String
  last_question : Option LastQuestion
  theme_stats : Option (List (String × ThemeStats))
deriving DecidableEq, Repr

/-- The empty dict: the state right after self.data is assigned the empty
dict literal. -/
def SessionData.empty : SessionData :=
  { user_id := none, user_name := none, last_update := none,
    current_theme := none, last_question := none, theme_stats := none }

/-- Dict lookup d[k] on an insertion-ordered association list: the value
at the first matching key. -/
def alistGet {κ α : Type} [DecidableEq κ] : List (κ × α) → κ → Option α
  | [], _ => none
  | (k, v) :: rest, key => if k = key then some v else alistGet rest key

/-- Dict assignment d[k] = v on an insertion-ordered association list:
replaces the value at the first matching key, or appends the binding
when the key is absent (Python dict insertion order). -/
def alistSet {κ α : Type} [DecidableEq κ] : List (κ × α) → κ → α → List (κ × α)
  | [], key, v => [(key, v)]
  | (k, w) :: rest, key, v =>
      if k = key then (key, v) :: rest else (k, w) :: alistSet rest key v

/-- Python list subscription xs[i]: nonnegative indices below the length
read from the front, indices in [-len, -1] read from the back, anything
else raises IndexError (modelled as none). -/
def pyGet {α : Type} (xs : List α) (i : Int) : Option α :=
  if 0 ≤ i ∧ i < (xs.length : Int) then xs.get? i.toNat
  else if -(xs.length : Int) ≤ i ∧ i < 0 then xs.get? (i + xs.length).toNat
  else none

/-- The theme_stats dict of a session; an absent key reads as the empty
dict, exactly as the guard at the top of update_question_stats creates it. -/
def SessionData.themeStatsD (d : SessionData) : List (String × ThemeStats) :=
  d.theme_stats.getD []

/-- The default theme entry created by update_question_stats when the
theme key is absent. -/
def freshThemeStats : ThemeStats :=
  { question_stats := [], total := 0, correct := 0 }

/-- UserSession.update_question_stats (src/bot.py lines 149-178): ensures
the theme entry and the per-question entry exist, then increments the
per-question total, the theme total, and on a correct answer both
correct counters. -/
def update_question_stats (d : SessionData) (question_id : Int)
    (is_correct : Bool) (theme : String) : SessionData :=
  let theme_stats := (alistGet d.themeStatsD theme).getD freshThemeStats
  let q_id := toString question_id
  let q_stats := (alistGet theme_stats.question_stats q_id).getD ⟨0, 0⟩
  let q_stats' : QStats :=
    { total := q_stats.total + 1,
      correct := q_stats.correct + (if is_correct then 1 else 0) }
  let theme_stats' : ThemeStats :=
    { question_stats := alistSet theme_stats.question_stats q_id q_stats',
      total := theme_stats.total + 1,
      correct := theme_stats.correct + (if is_correct then 1 else 0) }
  { d with theme_stats := some (alistSet d.themeStatsD theme theme_stats') }

/-- UserSession.reset_session (src/bot.py lines 134-147): deletes the
session file and replaces self.data with the empty dict. -/
def reset_session (_d : SessionData) : SessionData :=
  SessionData.empty

/-- UserSession.clear_last_question (src/bot.py lines 127-132): removes
the last_question key from the dict. -/
def clear_last_question (d : SessionData) : SessionData :=
  { d with last_question := none }

/-- UserSession.set_last_question (src/bot.py lines 117-121). -/
def set_last_question (d : SessionData) (q : LastQuestion) : SessionData :=
  { d with last_question := some q }

/-- The outcome of handle_answer_callback visible to the transport:
either the stale-answer rejection, or a verdict carrying the selected
and correct option texts together with the question looked up for the
primary explanation and the question looked up for the selected
(wrong) answer's own explanation and media. -/
inductive AnswerOutcome where
  | stale
  | judged (is_correct : Bool) (selected_answer : String)
      (correct_answer : String) (question_data : Option Question)
      (selected_answer_data : Option Question)
deriving DecidableEq, Repr

/-- The lookup at src/bot.py lines 831-834: the first question of the
given (active-theme) question list whose correct_answer equals the
selected text and whose id differs from the question being judged. -/
def find_selected_answer_data (theme_questions : List Question)
    (selected_answer : String) (question_id : Int) : Option Question :=
  theme_questions.find?
    (fun q => q.correct_answer == selected_answer && q.id != question_id)

/-- handle_answer_callback (src/bot.py lines 787-943) after the callback
data has been parsed into question_id and selected_option.  The stale
check returns without touching the session; otherwise the options are
subscripted with Python indexing (IndexError aborts the handler), the
explanation lookups run against the active theme, and - on a wrong
answer - the membership test on selected_answer_data raises TypeError
when that lookup found nothing.  On completion the statistics are
updated and the pending question cleared; an exception aborts the
handler before either mutation. -/
def handle_answer_callback (themes : List (String × ThemeData))
    (current_theme : Option String) (d : SessionData)
    (question_id : Int) (selected_option : Int) :
    Except String (SessionData × AnswerOutcome) :=
  match d.last_question with
  | none => Except.ok (d, AnswerOutcome.stale)
  | some lq =>
    if lq.question_id ≠ question_id then Except.ok (d, AnswerOutcome.stale)
    else
      let correct_option := lq.correct_option
      let is_correct : Bool := selected_option == (correct_option : Int)
      let options := lq.options
      match pyGet options (selected_option - 1) with
      | none => Except.error "IndexError: list index out of range"
      | some selected_answer =>
      match pyGet options ((correct_option : Int) - 1) with
      | none => Except.error "IndexError: list index out of range"
      | some correct_answer =>
      match current_theme with
      | none => Except.error "KeyError: None"
      | some ct =>
      match alistGet themes ct with
      | none => Except.error "KeyError"
      | some theme_data =>
      let question_data :=
        theme_data.questions.find? (fun q => q.id == question_id)
      let selected_answer_data :=
        find_selected_answer_data theme_data.questions selected_answer question_id
      if is_correct then
        let d1 := update_question_stats d question_id true lq.theme
        Except.ok (clear_last_question d1,
          AnswerOutcome.judged true selected_answer correct_answer
            question_data selected_answer_data)
      else
        match selected_answer_data with
        | none => Except.error "TypeError: argument of type NoneType is not iterable"
        | some sad =>
          let d1 := update_question_stats d question_id false lq.theme
          Except.ok (clear_last_question d1,
            AnswerOutcome.judged false selected_answer correct_answer
              question_data (some sad))

/-- One step of the questions_by_correct grouping loop in
UserSession.smart_get_question (src/bot.py lines 255-261): the question
is appended to the bucket of its correct-count, a new bucket being
created at the end of the dict when the count was not seen before. -/
def bucketAdd : List (Nat × List Question) → Nat → Question →
    List (Nat × List Question)
  | [], c, q => [(c, [q])]
  | (k, l) :: rest, c, q =>
      if k = c then (k, l ++ [q]) :: rest else (k, l) :: bucketAdd rest c q

/-- The questions_by_correct dict of smart_get_question: questions
grouped by the number of correct answers recorded for them (absent
stats read as zero). -/
def questions_by_correct (question_stats : List (String × QStats))
    (qs : List Question) : List (Nat × List Question) :=
  qs.foldl
    (fun buckets q =>
      bucketAdd buckets
        (((alistGet question_stats (toString q.id)).getD ⟨0, 0⟩).correct) q)
    []

/-- min(questions_by_correct.keys()) with the source's fallback of 0 for
an empty dict. -/
def minBucketKey (buckets : List (Nat × List Question)) : Nat :=
  match buckets.map Prod.fst with
  | [] => 0
  | k :: ks => ks.foldl Nat.min k

/-- The candidate_questions value of smart_get_question (src/bot.py lines
263-265): the bucket of the minimal correct-count, defaulting to the
whole question list.  random.choice then draws uniformly from it. -/
def candidate_questions (question_stats : List (String × QStats))
    (qs : List Question) : List Question :=
  let buckets := questions_by_correct question_stats qs
  (alistGet buckets (minBucketKey buckets)).getD qs

/-- The probability that random.choice over the given candidate list
returns the given question: its multiplicity divided by the length. -/
def choiceProb (cands : List Question) (q : Question) : ℚ :=
  (cands.count q : ℚ) / (cands.length : ℚ)

/-- The guarantee random.sample gives about its result whenever the
requested size does not exceed the population: exactly that many
elements, drawn from the population without replacement - the result is
a permutation of a sublist, so each population position is used at most
once (equal texts at different positions can still both be drawn).  The
sampling functions below are parametrised by an arbitrary function
satisfying this. -/
def SampleSpec (sampleF : List String → Nat → List String) : Prop :=
  ∀ xs n, n ≤ xs.length →
    (sampleF xs n).length = n ∧ List.Subperm (sampleF xs n) xs

/-- The other_answers list of smart_get_question (src/bot.py lines 279
and 285): the correct answers of every question of the theme other than
the one being asked. -/
def other_answers (q : Question) (questions : List Question) : List String :=
  (questions.filter (fun p => p.id != q.id)).map (fun p => p.correct_answer)

/-- The distractor-selection block of smart_get_question (src/bot.py
lines 271-287), with random.sample abstracted by sampleF.  A question
with an explicit wrong_answers pool samples num_options - 1 of them when
the pool is large enough; otherwise the whole pool is supplemented with
a sample of other questions' correct answers - and random.sample raises
ValueError (modelled as Except.error) when the supplement needed exceeds
the available other answers.  Without a pool, the sample size is clamped
with min, shrinking the distractor count instead of failing. -/
def smart_selected_wrong (sampleF : List String → Nat → List String)
    (q : Question) (questions : List Question) (num_options : Nat) :
    Except String (List String) :=
  let others := other_answers q questions
  match q.wrong_answers with
  | some wrong_answers =>
      if num_options - 1 ≤ wrong_answers.length then
        Except.ok (sampleF wrong_answers (num_options - 1))
      else
        let needed := (num_options - 1) - wrong_answers.length
        if 0 < needed then
          if others.length < needed then
            Except.error "ValueError: Sample larger than population or is negative"
          else Except.ok (wrong_answers ++ sampleF others needed)
        else Except.ok (wrong_answers ++ [])
  | none =>
      Except.ok (sampleF others (Nat.min others.length (num_options - 1)))

/-- The correct_option computation of smart_get_question (src/bot.py line
290): the 1-based position of the first occurrence of the correct answer
in the shuffled option list. -/
def correct_option_of (options : List String) (correct_answer : String) : Nat :=
  options.indexOf correct_answer + 1

/-- A question as stored by src/question_manager.py (questions.json):
flat list, each question carrying the tag of its theme. -/
structure QMQuestion where
  id : Int
  tag : String
  correct_answer : String
deriving DecidableEq, Repr

/-- The per-question sampling weight of QuestionManager.get_random_question
(src/question_manager.py lines 86-92): 1.0 for an unseen question, and
0.2 + 0.8 * error_rate otherwise, with error_rate = 1 - correct/total.
The constants are modelled as the exact rationals 1/5 and 4/5. -/
def qm_weight (s : QStats) : ℚ :=
  if s.total = 0 then 1
  else 1/5 + 4/5 * (1 - (s.correct : ℚ) / (s.total : ℚ))

/-- The weight list built by get_random_question, one weight per question
in order (the user stats dict is pre-filled by _get_user_stats, so an
absent entry reads as zero counters). -/
def qm_weights (user_stats : List (String × QStats))
    (questions : List QMQuestion) : List ℚ :=
  questions.map
    (fun q => qm_weight ((alistGet user_stats (toString q.id)).getD ⟨0, 0⟩))

/-- The probability that random.choices with the given weight list
returns the element at position i: its weight divided by the total. -/
def choices_prob (ws : List ℚ) (i : Nat) : ℚ :=
  ws.getD i 0 / ws.sum

/-- One row of the leaderboard built by get_global_stats (src/bot.py
lines 584-619).  The presentation-only percentage of the all-themes
branch is not part of the ranking and is not modelled. -/
structure StatEntry where
  user_id : String
  user_name : String
  total : Nat
  correct : Nat
deriving DecidableEq, Repr

/-- The per-user entry of get_global_stats: for a given theme, that
theme's counters (skipping the user when the total is zero); for the
all-themes scope, the sums across every theme. -/
def global_stat_entry (theme : Option String) (uid : String)
    (d : SessionData) : Option StatEntry :=
  let theme_stats := d.themeStatsD
  let user_name := d.user_name.getD "Незвестный"
  match theme with
  | some t =>
      let stats := (alistGet theme_stats t).getD freshThemeStats
      if 0 < stats.total then
        some ⟨uid, user_name, stats.total, stats.correct⟩
      else none
  | none =>
      let total := (theme_stats.map (fun p => p.2.total)).sum
      let correct := (theme_stats.map (fun p => p.2.correct)).sum
      if 0 < total then some ⟨uid, user_name, total, correct⟩ else none

/-- The user_stats list of get_global_stats before sorting, in session
scan order. -/
def global_stat_entries (sessions : List (String × SessionData))
    (theme : Option String) : List StatEntry :=
  sessions.filterMap (fun p => global_stat_entry theme p.1 p.2)

/-- The sort key comparison of get_global_stats: entry a ranks strictly
above entry b when a has more correct answers, or equally many correct
answers and a larger total. -/
def statKeyGt (a b : StatEntry) : Bool :=
  b.correct < a.correct || (a.correct == b.correct && b.total < a.total)

/-- Insertion into a descending-sorted list, placing the new element
after every element strictly above it and before everything else: the
insertion step of a stable descending sort. -/
def insertStatDesc (x : StatEntry) : List StatEntry → List StatEntry
  | [] => [x]
  | y :: ys => if statKeyGt y x then y :: insertStatDesc x ys else x :: y :: ys

/-- Stable descending sort by (correct, total): the semantics of
sorted(user_stats, key = (correct, total), reverse = True) at src/bot.py
line 619 - Python's sort is stable, and with reverse = True elements
with equal keys keep their original order. -/
def sortStatsDesc : List StatEntry → List StatEntry
  | [] => []
  | x :: xs => insertStatDesc x (sortStatsDesc xs)

/-- get_global_stats (src/bot.py lines 584-619) over the already-parsed
session records, keyed by the user id taken from the file name. -/
def get_global_stats (sessions : List (String × SessionData))
    (theme : Option String) : List StatEntry :=
  sortStatsDesc (global_stat_entries sessions theme)

/-- The rank lookup of handle_stats_callback and
handle_global_stats_callback (src/bot.py lines 643 and 677): the 1-based
position of the first leaderboard entry whose user_id equals the
caller's id, matching by id and never by display name. -/
def find_user_position : List StatEntry → String → Option Nat
  | [], _ => none
  | e :: rest, uid =>
      if e.user_id = uid then some 1
      else (find_user_position rest uid).map (· + 1)

/-- JSON documents as written by json.dump and read back by json.load in
UserSession.save_session and UserSession.__init__ (src/bot.py lines
80-115).  Numbers are modelled as exact rationals: Python round-trips
both ints and floats through JSON text exactly. -/
inductive Json where
  | null
  | bool (b : Bool)
  | num (q : ℚ)
  | str (s : String)
  | arr (xs : List Json)
  | obj (fields : List (String × Json))

/-- Reads a JSON number back as the nonnegative integer counter it was
written from. -/
def Json.asNat : Json → Option Nat
  | Json.num q => if q.den = 1 ∧ 0 ≤ q.num then some q.num.toNat else none
  | _ => none

/-- Reads a JSON number back as the integer it was written from. -/
def Json.asInt : Json → Option Int
  | Json.num q => if q.den = 1 then some q.num else none
  | _ => none

/-- Reads a JSON number back as a rational (timestamps). -/
def Json.asRat : Json → Option ℚ
  | Json.num q => some q
  | _ => none

/-- Reads a JSON string. -/
def Json.asStr : Json → Option String
  | Json.str s => some s
  | _ => none

/-- Reads an optional string stored as either null or a string (the file
field of a stored last_question). -/
def Json.asOptStr : Json → Option (Option String)
  | Json.null => some none
  | Json.str s => some (some s)
  | _ => none

/-- Reads a JSON array of strings (the options list). -/
def Json.asStrList : Json → Option (List String)
  | Json.arr xs => xs.mapM Json.asStr
  | _ => none

/-- The JSON document of one per-question counter pair. -/
def QStats.toJson (s : QStats) : Json :=
  Json.obj [("total", Json.num s.total), ("correct", Json.num s.correct)]

/-- Reads a per-question counter pair back. -/
def QStats.fromJson (j : Json) : Option QStats :=
  match j with
  | Json.obj fields => do
      let t ← (alistGet fields "total").bind Json.asNat
      let c ← (alistGet fields "correct").bind Json.asNat
      some ⟨t, c⟩
  | _ => none

/-- The JSON document of the question_stats dict. -/
def qstatsListToJson (m : List (String × QStats)) : Json :=
  Json.obj (m.map (fun p => (p.1, QStats.toJson p.2)))

/-- Reads a question_stats dict back, key order preserved. -/
def qstatsListFromJson (j : Json) : Option (List (String × QStats)) :=
  match j with
  | Json.obj fields =>
      fields.mapM (fun p => (QStats.fromJson p.2).map (fun s => (p.1, s)))
  | _ => none

/-- The JSON document of one theme's counters. -/
def ThemeStats.toJson (ts : ThemeStats) : Json :=
  Json.obj [("question_stats", qstatsListToJson ts.question_stats),
    ("total", Json.num ts.total), ("correct", Json.num ts.correct)]

/-- Reads one theme's counters back. -/
def ThemeStats.fromJson (j : Json) : Option ThemeStats :=
  match j with
  | Json.obj fields => do
      let qs ← (alistGet fields "question_stats").bind qstatsListFromJson
      let t ← (alistGet fields "total").bind Json.asNat
      let c ← (alistGet fields "correct").bind Json.asNat
      some ⟨qs, t, c⟩
  | _ => none

/-- The JSON document of the theme_stats dict. -/
def themeStatsListToJson (m : List (String × ThemeStats)) : Json :=
  Json.obj (m.map (fun p => (p.1, ThemeStats.toJson p.2)))

/-- Reads a theme_stats dict back, key order preserved. -/
def themeStatsListFromJson (j : Json) : Option (List (String × ThemeStats)) :=
  match j with
  | Json.obj fields =>
      fields.mapM (fun p => (ThemeStats.fromJson p.2).map (fun s => (p.1, s)))
  | _ => none

/-- The JSON document of a stored last_question, with the same keys as
the dict returned by smart_get_question; an absent file is stored as
null. -/
def LastQuestion.toJson (lq : LastQuestion) : Json :=
  Json.obj [("question_id", Json.num lq.question_id),
    ("text", Json.str lq.text),
    ("file", match lq.file with | some f => Json.str f | none => Json.null),
    ("options", Json.arr (lq.options.map Json.str)),
    ("correct_option", Json.num lq.correct_option),
    ("theme", Json.str lq.theme),
    ("theme_name", Json.str lq.theme_name)]

/-- Reads a stored last_question back. -/
def LastQuestion.fromJson (j : Json) : Option LastQuestion :=
  match j with
  | Json.obj fields => do
      let qid ← (alistGet fields "question_id").bind Json.asInt
      let text ← (alistGet fields "text").bind Json.asStr
      let file ← (alistGet fields "file").bind Json.asOptStr
      let options ← (alistGet fields "options").bind Json.asStrList
      let co ← (alistGet fields "correct_option").bind Json.asNat
      let theme ← (alistGet fields "theme").bind Json.asStr
      let theme_name ← (alistGet fields "theme_name").bind Json.asStr
      some ⟨qid, text, file, options, co, theme, theme_name⟩
  | _ => none

/-- A key-value pair present in the dict only when the value is set:
absent keys are simply not written by json.dump. -/
def optField (key : String) (v : Option Json) : List (String × Json) :=
  match v with
  | some j => [(key, j)]
  | none => []

/-- The whole-session JSON document written by UserSession.save_session:
the data dict serialized verbatim, one key per present field. -/
def SessionData.toJson (d : SessionData) : Json :=
  Json.obj
    (optField "user_id" (d.user_id.map (fun n => Json.num n)) ++
     optField "user_name" (d.user_name.map Json.str) ++
     optField "last_update" (d.last_update.map Json.num) ++
     optField "current_theme" (d.current_theme.map Json.str) ++
     optField "last_question" (d.last_question.map LastQuestion.toJson) ++
     optField "theme_stats" (d.theme_stats.map themeStatsListToJson))

/-- Looks a key up in the loaded document: an absent key reads as an
unset field, a present key must parse. -/
def getOptField {α : Type} (fields : List (String × Json)) (key : String)
    (f : Json → Option α) : Option (Option α) :=
  match alistGet fields key with
  | none => some none
  | some j => (f j).map some

/-- Reads a whole-session document back into the session structure, as
UserSession.__init__ does via json.load. -/
def SessionData.fromJson (j : Json) : Option SessionData :=
  match j with
  | Json.obj fields => do
      let uid ← getOptField fields "user_id" Json.asInt
      let uname ← getOptField fields "user_name" Json.asStr
      let lu ← getOptField fields "last_update" Json.asRat
      let ct ← getOptField fields "current_theme" Json.asStr
      let lq ← getOptField fields "last_question" LastQuestion.fromJson
      let ts ← getOptField fields "theme_stats" themeStatsListFromJson
      some ⟨uid, uname, lu, ct, lq, ts⟩
  | _ => none

/-! Concrete fixtures used to instantiate the theorems below. -/

/-- Question A of the adaptive-selection scenario: unseen (0/0). -/
def qA : Question := ⟨1, "tA", "A", none, none, none⟩

/-- Question B of the adaptive-selection scenario: 1 correct of 10. -/
def qB : Question := ⟨2, "tB", "B", none, none, none⟩

/-- Question C of the adaptive-selection scenario: 9 correct of 10. -/
def qC : Question := ⟨3, "tC", "C", none, none, none⟩

/-- The user stats of the scenario: B at 1/10, C at 9/10, A absent. -/
def exStatsABC : List (String × QStats) := [("2", ⟨10, 1⟩), ("3", ⟨10, 9⟩)]

/-- The same three questions in the flat question_manager format. -/
def exQMQs : List QMQuestion := [⟨1, "heart", "A"⟩, ⟨2, "heart", "B"⟩, ⟨3, "heart", "C"⟩]

/-- A theme whose first question carries an explicit wrong-answer pool
none of whose texts is any question's correct answer. -/
def themesPool : List (String × ThemeData) :=
  [("cardio", ⟨"Cardio", [⟨1, "t1", "A", some ["x", "y", "z"], none, none⟩, qB]⟩)]

/-- The pending question generated from that pool: options are the three
pool distractors plus the correct answer. -/
def lqPool : LastQuestion := ⟨1, "t1", none, ["x", "y", "z", "A"], 4, "cardio", "Cardio"⟩

/-- A session holding that pending question. -/
def dPool : SessionData := { SessionData.empty with last_question := some lqPool }

/-- A two-question theme without distractor pools. -/
def themesAB : List (String × ThemeData) := [("cardio", ⟨"Cardio", [qA, qB]⟩)]

/-- A pending question over themesAB whose correct option is 2. -/
def lqAB : LastQuestion := ⟨1, "tA", none, ["B", "A"], 2, "cardio", "Cardio"⟩

/-- A session holding lqAB. -/
def dAB : SessionData := { SessionData.empty with last_question := some lqAB }

/-- A pending question over themesAB whose correct option is 1, so that
its last option is the other question's correct answer. -/
def lqBA : LastQuestion := ⟨1, "tA", none, ["A", "B"], 1, "cardio", "Cardio"⟩

/-- A session holding lqBA. -/
def dBA : SessionData := { SessionData.empty with last_question := some lqBA }

/-- A question with a one-element wrong-answer pool, in a two-question
theme: only two eligible distractors exist theme-wide. -/
def qSmallPool : Question := ⟨1, "t1", "A", some ["w"], none, none⟩

/-- Two further questions sharing the correct-answer text X: a theme in
which two distinct questions carry the same answer wording. -/
def qShared1 : Question := ⟨2, "t2", "X", none, none, none⟩

/-- The second question with correct-answer text X. -/
def qShared2 : Question := ⟨3, "t3", "X", none, none, none⟩

/-- A deterministic instance of the random.sample contract, used to
instantiate the sampling theorems: taking the first n elements. -/
def sampleTake (xs : List String) (n : Nat) : List String := xs.take n

/-- The session of user alice: 8 correct of 10 in theme cardio. -/
def aliceD : SessionData :=
  { SessionData.empty with
      user_name := some "alice"
      theme_stats := some [("cardio", ⟨[], 10, 8⟩)] }

/-- The session of user bob: 9 correct of 12 in theme cardio. -/
def bobD : SessionData :=
  { SessionData.empty with
      user_name := some "bob"
      theme_stats := some [("cardio", ⟨[], 12, 9⟩)] }

/-- The two-user leaderboard input, alice first. -/
def sessionsAliceBob : List (String × SessionData) := [("1", aliceD), ("2", bobD)]

/-- The per-theme invariant of §3 of the spec: the per-question totals
sum to the theme total, and correct never exceeds total at either
level. -/
def ThemeStats.inv (ts : ThemeStats) : Prop :=
  (ts.question_stats.map (fun p => p.2.total)).sum = ts.total ∧
  ts.correct ≤ ts.total ∧
  ∀ p ∈ ts.question_stats, p.2.correct ≤ p.2.total

/-- The session-wide stats invariant: every theme entry satisfies the
per-theme invariant. -/
def SessionData.statsInv (d : SessionData) : Prop :=
  ∀ p ∈ d.themeStatsD, ThemeStats.inv p.2

/-- The theme-level counters read back from a session, an absent theme
reading as zeroed counters. -/
def themeCounters (d : SessionData) (theme : String) : ThemeStats :=
  (alistGet d.themeStatsD theme).getD freshThemeStats

/-- The per-question counters read back from a session. -/
def questionCounters (d : SessionData) (theme : String) (q_id : String) : QStats :=
  (alistGet (themeCounters d theme).question_stats q_id).getD ⟨0, 0⟩

/-- The sort key of the leaderboard: (correct, total). -/
def statKey (e : StatEntry) : Nat × Nat := (e.correct, e.total)

/-- A question with a three-element wrong-answer pool (the first question
of themesPool). -/
def qBigPool : Question := ⟨1, "t1", "A", some ["x", "y", "z"], none, none⟩

/-- The per-question counters update_question_stats writes for the
answered question: the previous counters (zero when absent) with total
incremented and correct incremented on a correct answer. -/
def bumpedQStats (d : SessionData) (qid : Int) (ic : Bool) (th : String) : QStats :=
  ⟨(questionCounters d th (toString qid)).total + 1,
   (questionCounters d th (toString qid)).correct + (if ic then 1 else 0)⟩

/-- The theme entry update_question_stats writes: the previous entry with
the answered question's counters replaced and the theme totals
incremented. -/
def bumpedThemeStats (d : SessionData) (qid : Int) (ic : Bool) (th : String) :
    ThemeStats :=
  ⟨alistSet (themeCounters d th).question_stats (toString qid)
      (bumpedQStats d qid ic th),
   (themeCounters d th).total + 1,
   (themeCounters d th).correct + (if ic then 1 else 0)⟩

/-! Helper lemmas about the dict operations. -/

theorem alistGet_alistSet_self {κ α : Type} [DecidableEq κ]
    (m : List (κ × α)) (k : κ) (v : α) :
    alistGet (alistSet m k v) k = some v := by
  induction m with
  | nil => simp [alistSet, alistGet]
  | cons p rest ih =>
      obtain ⟨k1, w⟩ := p
      by_cases h : k1 = k
      · simp [alistSet, h, alistGet]
      · simp [alistSet, h, alistGet, ih]

theorem alistGet_alistSet_ne {κ α : Type} [DecidableEq κ]
    (m : List (κ × α)) (k k' : κ) (v : α) (h : k' ≠ k) :
    alistGet (alistSet m k v) k' = alistGet m k' := by
  have hkk : k ≠ k' := fun hh => h hh.symm
  induction m with
  | nil => simp [alistSet, alistGet, hkk]
  | cons p rest ih =>
      obtain ⟨k1, w⟩ := p
      by_cases h1 : k1 = k
      · subst h1
        simp [alistSet, alistGet, hkk]
      · simp [alistSet, h1, alistGet, ih]

theorem mem_alistSet {κ α : Type} [DecidableEq κ]
    (m : List (κ × α)) (k : κ) (v : α) (p : κ × α)
    (hp : p ∈ alistSet m k v) : p = (k, v) ∨ p ∈ m := by
  induction m with
  | nil => simpa [alistSet] using hp
  | cons q rest ih =>
      obtain ⟨k1, w⟩ := q
      by_cases h : k1 = k
      · simp [alistSet, h] at hp
        rcases hp with hp | hp
        · exact Or.inl (by simp [hp])
        · exact Or.inr (List.mem_cons_of_mem _ hp)
      · simp [alistSet, h] at hp
        rcases hp with hp | hp
        · exact Or.inr (by simp [hp])
        · rcases ih hp with hh | hh
          · exact Or.inl hh
          · exact Or.inr (List.mem_cons_of_mem _ hh)

theorem alistGet_mem {κ α : Type} [DecidableEq κ]
    (m : List (κ × α)) (k : κ) (v : α) (h : alistGet m k = some v) :
    (k, v) ∈ m := by
  induction m with
  | nil => simp [alistGet] at h
  | cons p rest ih =>
      obtain ⟨k1, w⟩ := p
      by_cases h1 : k1 = k
      · subst h1
        simp [alistGet] at h
        simp [h]
      · simp [alistGet, h1] at h
        exact List.mem_cons_of_mem _ (ih h)

theorem alistSet_map_sum_some {κ α : Type} [DecidableEq κ]
    (f : α → ℕ) (m : List (κ × α)) (k : κ) (v w : α)
    (h : alistGet m k = some w) :
    ((alistSet m k v).map (fun p => f p.2)).sum + f w =
      (m.map (fun p => f p.2)).sum + f v := by
  induction m with
  | nil => simp [alistGet] at h
  | cons p rest ih =>
      obtain ⟨k1, u⟩ := p
      by_cases h1 : k1 = k
      · subst h1
        simp [alistGet] at h
        subst h
        simp [alistSet]
        ring
      · simp [alistGet, h1] at h
        simp only [alistSet, if_neg h1, List.map_cons, List.sum_cons]
        have := ih h
        omega

theorem alistSet_map_sum_none {κ α : Type} [DecidableEq κ]
    (f : α → ℕ) (m : List (κ × α)) (k : κ) (v : α)
    (h : alistGet m k = none) :
    ((alistSet m k v).map (fun p => f p.2)).sum =
      (m.map (fun p => f p.2)).sum + f v := by
  induction m with
  | nil => simp [alistSet]
  | cons p rest ih =>
      obtain ⟨k1, u⟩ := p
      by_cases h1 : k1 = k
      · simp [alistGet, h1] at h
      · simp [alistGet, h1] at h
        simp only [alistSet, if_neg h1, List.map_cons, List.sum_cons]
        have := ih h
        omega

/-! Helper lemmas about the sampling weights of get_random_question. -/

theorem qm_weight_lb (s : QStats) (h : s.correct ≤ s.total) :
    1/5 ≤ qm_weight s := by
  unfold qm_weight
  by_cases h0 : s.total = 0
  · rw [if_pos h0]
    norm_num
  · rw [if_neg h0]
    have ht : (0 : ℚ) < s.total := by
      exact_mod_cast Nat.pos_of_ne_zero h0
    have hle : (s.correct : ℚ) / s.total ≤ 1 := by
      rw [div_le_one ht]
      exact_mod_cast h
    linarith

theorem qm_weight_ub (s : QStats) : qm_weight s ≤ 1 := by
  unfold qm_weight
  by_cases h0 : s.total = 0
  · rw [if_pos h0]
  · rw [if_neg h0]
    have ht : (0 : ℚ) < s.total := by
      exact_mod_cast Nat.pos_of_ne_zero h0
    have hge : 0 ≤ (s.correct : ℚ) / s.total :=
      div_nonneg (by positivity) (le_of_lt ht)
    linarith

theorem qm_weights_lb (us : List (String × QStats)) (qs : List QMQuestion)
    (h : ∀ p ∈ us, p.2.correct ≤ p.2.total) :
    ∀ w ∈ qm_weights us qs, 1/5 ≤ w := by
  intro w hw
  simp only [qm_weights, List.mem_map] at hw
  obtain ⟨q, _, rfl⟩ := hw
  apply qm_weight_lb
  cases hget : alistGet us (toString q.id) with
  | none => simp [hget]
  | some v =>
      simp only [hget, Option.getD_some]
      exact h (toString q.id, v) (alistGet_mem _ _ _ hget)

theorem list_sum_pos_of_lb (l : List ℚ) (h : ∀ w ∈ l, 1/5 ≤ w)
    (hne : l ≠ []) : 0 < l.sum := by
  cases l with
  | nil => exact absurd rfl hne
  | cons a rest =>
      have ha := h a (List.mem_cons_self a rest)
      have hr : 0 ≤ rest.sum :=
        List.sum_nonneg
          (fun x hx => le_trans (by norm_num) (h x (List.mem_cons_of_mem a hx)))
      simp only [List.sum_cons]
      linarith

/-! Claim theorems. -/

/-- C1, counterexample: in the current next-question operation
(UserSession.smart_get_question), the stats A 0/0, B 1/10, C 9/10 give
the candidate list [A] - only the questions with the fewest correct
answers can be drawn - so B is drawn with probability 0, not strictly
more often than C, and B and C have zero rather than nonzero
probability. -/
theorem C1_smart_selector_counterexample :
    candidate_questions exStatsABC [qA, qB, qC] = [qA] ∧
    choiceProb (candidate_questions exStatsABC [qA, qB, qC]) qB = 0 ∧
    ¬ (choiceProb (candidate_questions exStatsABC [qA, qB, qC]) qB >
        choiceProb (candidate_questions exStatsABC [qA, qB, qC]) qC) := by
  have hc : candidate_questions exStatsABC [qA, qB, qC] = [qA] := by decide
  have hb : List.count qB [qA] = 0 := by decide
  have hcc : List.count qC [qA] = 0 := by decide
  refine ⟨hc, ?_, ?_⟩
  · rw [hc]
    simp [choiceProb, hb]
  · rw [hc]
    simp [choiceProb, hb, hcc]

/-- C1, amended: the weighted sampling rule holds of the selector in
src/question_manager.py (QuestionManager.get_random_question): an unseen
question has weight 1, every question with consistent counters has
weight between 0.2 and 1 (hence nonzero selection probability under
random.choices), weights are monotone in the error rate, and on the
stats A 0/0, B 1/10, C 9/10 question B is drawn strictly more often
than C and A at least as often as B.  The theme-based
smart_get_question in src/bot.py does not use these weights (see the
counterexample). -/
theorem C1_weighted_selection_amended :
    (∀ s : QStats, s.total = 0 → qm_weight s = 1) ∧
    (∀ s : QStats, s.correct ≤ s.total → 1/5 ≤ qm_weight s ∧ qm_weight s ≤ 1) ∧
    (∀ s t : QStats, 0 < s.total → 0 < t.total →
      1 - (t.correct : ℚ) / t.total ≤ 1 - (s.correct : ℚ) / s.total →
      qm_weight t ≤ qm_weight s) ∧
    (∀ (us : List (String × QStats)) (qs : List QMQuestion) (i : Nat),
      (∀ p ∈ us, p.2.correct ≤ p.2.total) → i < qs.length →
      0 < choices_prob (qm_weights us qs) i) ∧
    (choices_prob (qm_weights exStatsABC exQMQs) 1 >
        choices_prob (qm_weights exStatsABC exQMQs) 2 ∧
      choices_prob (qm_weights exStatsABC exQMQs) 0 ≥
        choices_prob (qm_weights exStatsABC exQMQs) 1) := by
  refine ⟨?_, ?_, ?_, ?_, ?_⟩
  · intro s h0
    simp [qm_weight, h0]
  · intro s h
    exact ⟨qm_weight_lb s h, qm_weight_ub s⟩
  · intro s t hs ht h
    unfold qm_weight
    rw [if_neg (Nat.pos_iff_ne_zero.mp hs), if_neg (Nat.pos_iff_ne_zero.mp ht)]
    linarith
  · intro us qs i hus hi
    have hlen : i < (qm_weights us qs).length := by
      simpa [qm_weights] using hi
    have hget : (qm_weights us qs).getD i 0 = (qm_weights us qs).get ⟨i, hlen⟩ := by
      simp [List.getD_eq_getElem?_getD, List.getElem?_eq_getElem hlen]
    have hmem : (qm_weights us qs).get ⟨i, hlen⟩ ∈ qm_weights us qs :=
      List.get_mem _ _ _
    have hnum := qm_weights_lb us qs hus _ hmem
    have hsum : 0 < (qm_weights us qs).sum :=
      list_sum_pos_of_lb _ (qm_weights_lb us qs hus)
        (List.ne_nil_of_length_pos (Nat.lt_of_le_of_lt (Nat.zero_le i) hlen))
    unfold choices_prob
    rw [hget]
    exact div_pos (lt_of_lt_of_le (by norm_num) hnum) hsum
  · have hw : qm_weights exStatsABC exQMQs =
        [qm_weight ⟨0, 0⟩, qm_weight ⟨10, 1⟩, qm_weight ⟨10, 9⟩] := rfl
    rw [hw]
    norm_num [choices_prob, qm_weight, List.getD]

/-- C1 witness for the amended claim, at the concrete stats of the
scenario. -/
theorem C1_weighted_selection_amended_witness :
    ((1 : ℚ)/5 ≤ qm_weight ⟨10, 1⟩ ∧ qm_weight ⟨10, 1⟩ ≤ 1) ∧
      qm_weight ⟨0, 0⟩ = 1 ∧
      0 < choices_prob (qm_weights exStatsABC exQMQs) 0 :=
  ⟨C1_weighted_selection_amended.2.1 ⟨10, 1⟩ (by norm_num),
   C1_weighted_selection_amended.1 ⟨0, 0⟩ rfl,
   C1_weighted_selection_amended.2.2.2.1 exStatsABC exQMQs 0
     (by decide) (by decide)⟩

/-- C2 (code bug): a submission whose question_id matches the pending
question, whose selected option is wrong, and whose selected text equals
no other question's correct answer in the active theme makes
handle_answer_callback raise TypeError at the membership test on the
None lookup result - aborting before update_question_stats and
clear_last_question run - instead of recording the outcome and clearing
the pending question. -/
theorem C2_matching_answer_crash :
    dPool.last_question = some lqPool ∧ lqPool.question_id = 1 ∧
    handle_answer_callback themesPool (some "cardio") dPool 1 1 =
      Except.error "TypeError: argument of type NoneType is not iterable" :=
  ⟨rfl, rfl, rfl⟩

/-- C3: a submission is rejected as stale whenever no pending question
exists or its question_id differs from the submitted one; the handler
returns the session unchanged, so no theme-level or per-question counter
changes. -/
theorem C3_stale_submission_rejected (themes : List (String × ThemeData))
    (current_theme : Option String) (d : SessionData)
    (question_id selected_option : Int)
    (h : d.last_question = none ∨
      ∃ lq, d.last_question = some lq ∧ lq.question_id ≠ question_id) :
    handle_answer_callback themes current_theme d question_id selected_option =
      Except.ok (d, AnswerOutcome.stale) := by
  rcases h with h | ⟨lq, hlq, hne⟩
  · simp [handle_answer_callback, h]
  · simp [handle_answer_callback, hlq, hne]

/-- C3 witness: a session with no pending question. -/
theorem C3_stale_submission_rejected_witness :
    handle_answer_callback [] none SessionData.empty 1 1 =
      Except.ok (SessionData.empty, AnswerOutcome.stale) :=
  C3_stale_submission_rejected [] none SessionData.empty 1 1 (Or.inl rfl)

/-- C7: whenever handle_answer_callback surfaces a question for the
selected answer's explanation and media, that question belongs to the
active theme's question list, its correct_answer equals the selected
text, and it is not the question being judged - the lookup never
matches a question of a different theme. -/
theorem C7_wrong_answer_lookup_scoped (themes : List (String × ThemeData))
    (current_theme : Option String) (d : SessionData)
    (question_id selected_option : Int) (d' : SessionData) (ic : Bool)
    (sa ca : String) (qd : Option Question) (w : Question)
    (h : handle_answer_callback themes current_theme d question_id selected_option =
      Except.ok (d', AnswerOutcome.judged ic sa ca qd (some w))) :
    ∃ ctag tdata, current_theme = some ctag ∧ alistGet themes ctag = some tdata ∧
      w ∈ tdata.questions ∧ w.correct_answer = sa ∧ w.id ≠ question_id := by
  cases hlast : d.last_question with
  | none => simp [handle_answer_callback, hlast] at h
  | some lq =>
    by_cases hid : lq.question_id ≠ question_id
    · simp [handle_answer_callback, hlast, hid] at h
    · cases hsel : pyGet lq.options (selected_option - 1) with
      | none => simp [handle_answer_callback, hlast, hid, hsel] at h
      | some selected_answer =>
        cases hca : pyGet lq.options ((lq.correct_option : Int) - 1) with
        | none => simp [handle_answer_callback, hlast, hid, hsel, hca] at h
        | some correct_answer =>
          cases current_theme with
          | none => simp [handle_answer_callback, hlast, hid, hsel, hca] at h
          | some ctag =>
            cases hth : alistGet themes ctag with
            | none => simp [handle_answer_callback, hlast, hid, hsel, hca, hth] at h
            | some tdata =>
              refine ⟨ctag, tdata, rfl, hth, ?_⟩
              by_cases hic : (selected_option == (lq.correct_option : Int)) = true
              · simp [handle_answer_callback, hlast, hid, hsel, hca, hth, hic] at h
                obtain ⟨-, -, hsa, -, -, hfind⟩ := h
                rw [find_selected_answer_data] at hfind
                have hp := List.find?_some hfind
                have hm := List.mem_of_find?_eq_some hfind
                simp only [Bool.and_eq_true, beq_iff_eq, bne_iff_ne] at hp
                exact ⟨hm, hsa ▸ hp.1, hp.2⟩
              · cases hsad : find_selected_answer_data tdata.questions
                    selected_answer question_id with
                | none =>
                    simp [handle_answer_callback, hlast, hid, hsel, hca,
                      hth, hic, hsad] at h
                | some sad =>
                    simp [handle_answer_callback, hlast, hid, hsel, hca,
                      hth, hic, hsad] at h
                    obtain ⟨-, -, hsa, -, -, hw⟩ := h
                    subst hw
                    rw [find_selected_answer_data] at hsad
                    have hp := List.find?_some hsad
                    have hm := List.mem_of_find?_eq_some hsad
                    simp only [Bool.and_eq_true, beq_iff_eq, bne_iff_ne] at hp
                    exact ⟨hm, hsa ▸ hp.1, hp.2⟩

/-- C7 witness: submitting the wrong option B on question 1 of the
two-question cardio theme surfaces question 2, which belongs to the
active theme and is not the judged question. -/
theorem C7_wrong_answer_lookup_scoped_witness :
    ∃ ctag tdata, (some "cardio" : Option String) = some ctag ∧
      alistGet themesAB ctag = some tdata ∧ qB ∈ tdata.questions ∧
      qB.correct_answer = "B" ∧ qB.id ≠ 1 :=
  C7_wrong_answer_lookup_scoped themesAB (some "cardio") dAB 1 1
    (clear_last_question (update_question_stats dAB 1 false "cardio"))
    false "B" "A" (some qA) qB rfl

/-! Helper lemmas about Python list subscription. -/

theorem pyGet_nonneg {α : Type} (xs : List α) (n : Nat) (h : n < xs.length) :
    pyGet xs (n : Int) = some (xs.get ⟨n, h⟩) := by
  unfold pyGet
  rw [if_pos ⟨Int.ofNat_nonneg n, by exact_mod_cast h⟩]
  simp [List.get?_eq_get h]

theorem pyGet_neg_one {α : Type} (xs : List α) (h : xs ≠ []) :
    pyGet xs (-1) = some (xs.getLast h) := by
  have hlen : 0 < xs.length := List.length_pos.mpr h
  have h1 : xs.length - 1 < xs.length := by omega
  unfold pyGet
  rw [if_neg (by omega), if_pos (by omega)]
  have h2 : ((-1 : Int) + xs.length).toNat = xs.length - 1 := by omega
  rw [h2, List.get?_eq_get h1]
  rw [List.getLast_eq_get]

theorem pyGet_eq_none_iff {α : Type} (xs : List α) (i : Int) :
    pyGet xs i = none ↔ (xs.length : Int) ≤ i ∨ i < -(xs.length : Int) := by
  unfold pyGet
  by_cases h1 : 0 ≤ i ∧ i < (xs.length : Int)
  · rw [if_pos h1]
    have hh : i.toNat < xs.length := by omega
    simp [List.get?_eq_get hh]
    omega
  · rw [if_neg h1]
    by_cases h2 : -(xs.length : Int) ≤ i ∧ i < 0
    · rw [if_pos h2]
      have hh : (i + xs.length).toNat < xs.length := by omega
      simp [List.get?_eq_get hh]
      omega
    · simp only [if_neg h2]
      simp
      omega

/-- C5: when the option list is a permutation of the distractors plus the
correct answer - as assembled at src/bot.py lines 283-289 - the recorded
1-based correct_option is a valid index: it lies between 1 and the
option count, the handler's Python subscription options[correct_option-1]
yields exactly the correct answer text, and submitting that very index
makes handle_answer_callback judge the answer correct - the judge
compares under the same 1-based convention. -/
theorem C5_correct_option_consistent
    (wrong : List String) (correct_answer : String) (options : List String)
    (hperm : options.Perm (wrong ++ [correct_answer])) :
    1 ≤ correct_option_of options correct_answer ∧
    correct_option_of options correct_answer ≤ options.length ∧
    pyGet options ((correct_option_of options correct_answer : Int) - 1) =
      some correct_answer ∧
    (∀ (themes : List (String × ThemeData)) (ctag : String) (tdata : ThemeData)
      (d : SessionData) (lq : LastQuestion) (question_id : Int),
      d.last_question = some lq → lq.question_id = question_id →
      lq.options = options →
      lq.correct_option = correct_option_of options correct_answer →
      alistGet themes ctag = some tdata →
      ∃ d' qd sad, handle_answer_callback themes (some ctag) d question_id
          (correct_option_of options correct_answer : Int) =
        Except.ok (d', AnswerOutcome.judged true correct_answer correct_answer qd sad)) := by
  have hmem : correct_answer ∈ options := hperm.mem_iff.mpr (by simp)
  have hlt : options.indexOf correct_answer < options.length :=
    List.indexOf_lt_length.mpr hmem
  have hval : options.get ⟨options.indexOf correct_answer, hlt⟩ = correct_answer :=
    List.indexOf_get hlt
  have hco : correct_option_of options correct_answer =
      options.indexOf correct_answer + 1 := rfl
  have hcast : ((correct_option_of options correct_answer : Nat) : Int) - 1 =
      ((options.indexOf correct_answer : Nat) : Int) := by
    rw [hco]
    push_cast
    ring
  have hpg : pyGet options ((correct_option_of options correct_answer : Int) - 1) =
      some correct_answer := by
    rw [hcast, pyGet_nonneg options _ hlt, hval]
  refine ⟨by omega, by omega, hpg, ?_⟩
  intro themes ctag tdata d lq question_id hlast hid hopts hcoeq hth
  refine ⟨clear_last_question (update_question_stats d question_id true lq.theme),
    tdata.questions.find? (fun q => q.id == question_id),
    find_selected_answer_data tdata.questions correct_answer question_id, ?_⟩
  simp [handle_answer_callback, hlast, hid, hopts, hcoeq, hpg, hth]

/-- C5 witness: the two-option list B, A with correct answer A. -/
theorem C5_correct_option_consistent_witness :
    1 ≤ correct_option_of ["B", "A"] "A" ∧
    correct_option_of ["B", "A"] "A" ≤ (["B", "A"] : List String).length ∧
    pyGet ["B", "A"] ((correct_option_of ["B", "A"] "A" : Int) - 1) = some "A" ∧
    (∀ (themes : List (String × ThemeData)) (ctag : String) (tdata : ThemeData)
      (d : SessionData) (lq : LastQuestion) (question_id : Int),
      d.last_question = some lq → lq.question_id = question_id →
      lq.options = ["B", "A"] →
      lq.correct_option = correct_option_of ["B", "A"] "A" →
      alistGet themes ctag = some tdata →
      ∃ d' qd sad, handle_answer_callback themes (some ctag) d question_id
          (correct_option_of ["B", "A"] "A" : Int) =
        Except.ok (d', AnswerOutcome.judged true "A" "A" qd sad)) :=
  C5_correct_option_consistent ["B"] "A" ["B", "A"] (List.Perm.refl _)

/-- C10, counterexample: the claim that only indices strictly greater
than len(options) fail the options lookup is false: with the four-option
pending question, submitting -4 aborts the handler with IndexError even
though -4 is not greater than 4. -/
theorem C10_negative_index_counterexample :
    handle_answer_callback themesPool (some "cardio") dPool 1 (-4) =
      Except.error "IndexError: list index out of range" ∧
    lqPool.options.length = 4 ∧ ¬ ((4 : Int) < -4) :=
  ⟨rfl, rfl, by decide⟩

/-- C10 (amended): a submission with option index 0 whose question_id
matches the pending question is accepted without rejection: Python
indexing resolves options[0 - 1] to the last element, the verdict is
incorrect (0 never equals the 1-based correct_option), and the outcome
is recorded in the stats; the options lookup fails exactly for indices
strictly greater than len(options) or at most -len(options). -/
theorem C10_zero_index_accepted (themes : List (String × ThemeData))
    (ctag : String) (tdata : ThemeData) (d : SessionData) (lq : LastQuestion)
    (question_id : Int) (w : Question)
    (hlast : d.last_question = some lq) (hid : lq.question_id = question_id)
    (hne : lq.options ≠ []) (hco : 1 ≤ lq.correct_option)
    (hcolen : lq.correct_option ≤ lq.options.length)
    (hth : alistGet themes ctag = some tdata)
    (hsad : find_selected_answer_data tdata.questions (lq.options.getLast hne)
      question_id = some w) :
    (∃ ca qd, handle_answer_callback themes (some ctag) d question_id 0 =
      Except.ok
        (clear_last_question (update_question_stats d question_id false lq.theme),
          AnswerOutcome.judged false (lq.options.getLast hne) ca qd (some w))) ∧
    (∀ sel : Int, pyGet lq.options (sel - 1) = none ↔
      ((lq.options.length : Int) < sel ∨ sel ≤ -(lq.options.length : Int))) := by
  constructor
  · have hsel : pyGet lq.options (-1) = some (lq.options.getLast hne) :=
      pyGet_neg_one lq.options hne
    have hcolt : lq.correct_option - 1 < lq.options.length := by omega
    have hcast : ((lq.correct_option : Nat) : Int) - 1 =
        ((lq.correct_option - 1 : Nat) : Int) := by omega
    have hcaeq : pyGet lq.options ((lq.correct_option : Int) - 1) =
        some (lq.options.get ⟨lq.correct_option - 1, hcolt⟩) := by
      rw [hcast, pyGet_nonneg lq.options _ hcolt]
    have hic : ((0 : Int) == (lq.correct_option : Int)) = false := by
      simp
      omega
    refine ⟨lq.options.get ⟨lq.correct_option - 1, hcolt⟩,
      tdata.questions.find? (fun q => q.id == question_id), ?_⟩
    simp [handle_answer_callback, hlast, hid, hsel, hcaeq, hic, hth, hsad]
  · intro sel
    rw [pyGet_eq_none_iff]
    omega

/-- C10 witness: option 0 on the pending question with options A, B and
correct option 1 resolves to the last option B and is judged
incorrect. -/
theorem C10_zero_index_accepted_witness :
    (∃ ca qd, handle_answer_callback themesAB (some "cardio") dBA 1 0 =
      Except.ok
        (clear_last_question (update_question_stats dBA 1 false lqBA.theme),
          AnswerOutcome.judged false (lqBA.options.getLast (by decide)) ca qd
            (some qB))) ∧
    (∀ sel : Int, pyGet lqBA.options (sel - 1) = none ↔
      ((lqBA.options.length : Int) < sel ∨ sel ≤ -(lqBA.options.length : Int))) :=
  C10_zero_index_accepted themesAB "cardio" ⟨"Cardio", [qA, qB]⟩ dBA lqBA 1 qB
    rfl rfl (by decide) (by decide) (by decide) rfl rfl

/-! Helper lemmas for the sampling and stats theorems. -/

theorem sampleTake_spec : SampleSpec sampleTake := by
  intro xs n h
  constructor
  · simp [sampleTake, List.length_take]
    omega
  · exact (List.take_sublist n xs).subperm

theorem subperm_nodup (l1 l2 : List String) (h : List.Subperm l1 l2)
    (d : l2.Nodup) : l1.Nodup := by
  obtain ⟨l, hperm, hsub⟩ := h
  exact hperm.nodup_iff.mp (d.sublist hsub)

theorem themeCounters_update_self (d : SessionData) (qid : Int)
    (ic : Bool) (th : String) :
    themeCounters (update_question_stats d qid ic th) th =
      bumpedThemeStats d qid ic th := by
  show (alistGet (update_question_stats d qid ic th).themeStatsD th).getD
      freshThemeStats = _
  rw [show (update_question_stats d qid ic th).themeStatsD =
      alistSet d.themeStatsD th (bumpedThemeStats d qid ic th) from rfl]
  simp [alistGet_alistSet_self]

theorem themeCounters_update_other (d : SessionData) (qid : Int)
    (ic : Bool) (th th' : String) (h : th' ≠ th) :
    themeCounters (update_question_stats d qid ic th) th' = themeCounters d th' := by
  show (alistGet (update_question_stats d qid ic th).themeStatsD th').getD
      freshThemeStats = _
  rw [show (update_question_stats d qid ic th).themeStatsD =
      alistSet d.themeStatsD th (bumpedThemeStats d qid ic th) from rfl]
  rw [alistGet_alistSet_ne _ _ _ _ h]
  rfl

/-- C6, counterexample, refuting two clauses of the claim.  First, the
failure-free shrink: a question whose wrong-answer pool plus the other
questions' correct answers are fewer than the k-1 distractors requested
makes the selection fail with ValueError - random.sample at src/bot.py
line 281 is not clamped - instead of shrinking the option count to
available + 1 (which would be 3 here: one pool entry, one other answer,
plus the correct answer).  Second, never-duplicate-text: in a pool-less
theme where two other questions share the correct-answer text X, the
2-element population forces the 2-element sample, so the distractors
come out as X, X - duplicate text. -/
theorem C6_pool_overflow_counterexample :
    (smart_selected_wrong sampleTake qSmallPool [qSmallPool, qB] 4 =
      Except.error "ValueError: Sample larger than population or is negative" ∧
    qSmallPool.wrong_answers = some ["w"] ∧
    (other_answers qSmallPool [qSmallPool, qB]).length = 1) ∧
    (other_answers qA [qA, qShared1, qShared2] = ["X", "X"] ∧
    smart_selected_wrong sampleTake qA [qA, qShared1, qShared2] 4 =
      Except.ok ["X", "X"] ∧
    ¬ (["X", "X"] : List String).Nodup) :=
  ⟨⟨rfl, rfl, rfl⟩, ⟨rfl, rfl, by decide⟩⟩

/-- C6 (amended): for any sampler satisfying the random.sample contract
(sampling without replacement): a question with a pool of at least k-1
wrong answers gets k-1 distractors from the pool; a smaller pool is
supplemented from other questions' correct answers up to k-1 when enough
exist, but the operation fails with ValueError when pool plus other
answers cannot reach k-1; without a pool the distractor count shrinks to
min(available, k-1) instead of failing, the distractors are drawn without
replacement from the other questions' correct answers - so they are
pairwise distinct texts whenever those answers are pairwise distinct;
every eligible other answer comes from a question of the same theme
other than the one being asked; and in the concrete pool-less theme
where two other questions share the correct-answer text X, every
conforming sample yields the duplicate distractor texts X, X. -/
theorem C6_distractor_synthesis_amended (sampleF : List String → Nat → List String) (hs : SampleSpec sampleF)
    (q : Question) (qs : List Question) (k : Nat) :
    (∀ wa, q.wrong_answers = some wa → k - 1 ≤ wa.length →
      ∃ sel, smart_selected_wrong sampleF q qs k = Except.ok sel ∧
        sel.length = k - 1 ∧ ∀ x ∈ sel, x ∈ wa) ∧
    (∀ wa, q.wrong_answers = some wa → wa.length < k - 1 →
      (k - 1) - wa.length ≤ (other_answers q qs).length →
      ∃ sel, smart_selected_wrong sampleF q qs k = Except.ok sel ∧
        sel.length = k - 1 ∧ ∀ x ∈ sel, x ∈ wa ∨ x ∈ other_answers q qs) ∧
    (∀ wa, q.wrong_answers = some wa → wa.length < k - 1 →
      (other_answers q qs).length < (k - 1) - wa.length →
      smart_selected_wrong sampleF q qs k =
        Except.error "ValueError: Sample larger than population or is negative") ∧
    (q.wrong_answers = none →
      ∃ sel, smart_selected_wrong sampleF q qs k = Except.ok sel ∧
        sel.length = Nat.min (other_answers q qs).length (k - 1) ∧
        (∀ x ∈ sel, x ∈ other_answers q qs) ∧
        List.Subperm sel (other_answers q qs) ∧
        ((other_answers q qs).Nodup → sel.Nodup)) ∧
    (∀ x ∈ other_answers q qs, ∃ p, p ∈ qs ∧ p.id ≠ q.id ∧ p.correct_answer = x) ∧
    (∀ sel, smart_selected_wrong sampleF qA [qA, qShared1, qShared2] 4 =
      Except.ok sel → sel.length = 2 ∧ ¬ sel.Nodup) := by
  refine ⟨?_, ?_, ?_, ?_, ?_, ?_⟩
  · intro wa hwa hk
    obtain ⟨hlen, hsub⟩ := hs wa (k - 1) hk
    refine ⟨sampleF wa (k - 1), ?_, hlen, fun x hx => hsub.subset hx⟩
    simp [smart_selected_wrong, hwa, hk]
  · intro wa hwa hlt hle
    have hpos : 0 < (k - 1) - wa.length := by omega
    obtain ⟨hlen, hsub⟩ := hs (other_answers q qs) ((k - 1) - wa.length) hle
    refine ⟨wa ++ sampleF (other_answers q qs) ((k - 1) - wa.length), ?_, ?_, ?_⟩
    · simp [smart_selected_wrong, hwa, Nat.not_le.mpr hlt, hpos, Nat.not_lt.mpr hle]
    · simp [hlen]
      omega
    · intro x hx
      rcases List.mem_append.mp hx with hx | hx
      · exact Or.inl hx
      · exact Or.inr (hsub.subset hx)
  · intro wa hwa hlt hgt
    have hpos : 0 < (k - 1) - wa.length := by omega
    simp [smart_selected_wrong, hwa, Nat.not_le.mpr hlt, hpos, hgt]
  · intro hwa
    have hmin : Nat.min (other_answers q qs).length (k - 1) ≤ (other_answers q qs).length :=
      Nat.min_le_left _ _
    obtain ⟨hlen, hsub⟩ := hs (other_answers q qs) _ hmin
    exact ⟨_, by simp [smart_selected_wrong, hwa], hlen,
      fun x hx => hsub.subset hx, hsub,
      fun hnd => subperm_nodup _ _ hsub hnd⟩
  · intro x hx
    simp only [other_answers, List.mem_map, List.mem_filter] at hx
    obtain ⟨p, ⟨hpmem, hpne⟩, hpx⟩ := hx
    exact ⟨p, hpmem, by simpa using hpne, hpx⟩
  · intro sel hok
    have hred : smart_selected_wrong sampleF qA [qA, qShared1, qShared2] 4 =
        Except.ok (sampleF ["X", "X"] 2) := rfl
    rw [hred] at hok
    simp only [Except.ok.injEq] at hok
    obtain ⟨hlen, hsub⟩ := hs ["X", "X"] 2 (by decide)
    rw [hok] at hlen hsub
    cases sel with
    | nil => simp at hlen
    | cons a t =>
      cases t with
      | nil => simp at hlen
      | cons b t2 =>
        cases t2 with
        | cons c t3 => simp at hlen
        | nil =>
          have ha : a = "X" := by
            have := hsub.subset (List.mem_cons_self a [b])
            simpa using this
          have hb : b = "X" := by
            have := hsub.subset (List.mem_cons_of_mem a (List.mem_cons_self b []))
            simpa using this
          subst ha
          subst hb
          exact ⟨rfl, by decide⟩

/-- C6 witness: the take-prefix sampler on the concrete themes: a full
pool yields three pool distractors, the undersized pool fails, the
pool-less question shrinks its distractor count with a
without-replacement sample, and the shared-text theme forces the
duplicate distractors X, X. -/
theorem C6_distractor_synthesis_amended_witness :
    (∃ sel, smart_selected_wrong sampleTake qBigPool [qBigPool, qB] 4 =
        Except.ok sel ∧ sel.length = 3 ∧ ∀ x ∈ sel, x ∈ ["x", "y", "z"]) ∧
    smart_selected_wrong sampleTake qSmallPool [qSmallPool, qB] 4 =
      Except.error "ValueError: Sample larger than population or is negative" ∧
    (∃ sel, smart_selected_wrong sampleTake qA [qA, qB] 4 = Except.ok sel ∧
      sel.length = Nat.min (other_answers qA [qA, qB]).length 3 ∧
      (∀ x ∈ sel, x ∈ other_answers qA [qA, qB]) ∧
      List.Subperm sel (other_answers qA [qA, qB]) ∧
      ((other_answers qA [qA, qB]).Nodup → sel.Nodup)) ∧
    ((["X", "X"] : List String).length = 2 ∧ ¬ (["X", "X"] : List String).Nodup) :=
  ⟨(C6_distractor_synthesis_amended sampleTake sampleTake_spec qBigPool
      [qBigPool, qB] 4).1 ["x", "y", "z"] rfl (by decide),
   (C6_distractor_synthesis_amended sampleTake sampleTake_spec qSmallPool
      [qSmallPool, qB] 4).2.2.1 ["w"] rfl (by decide) (by decide),
   (C6_distractor_synthesis_amended sampleTake sampleTake_spec qA
      [qA, qB] 4).2.2.2.1 rfl,
   (C6_distractor_synthesis_amended sampleTake sampleTake_spec qA
      [qA, qShared1, qShared2] 4).2.2.2.2.2 ["X", "X"] rfl⟩

/-- C4: after an update from a state satisfying the stats invariant, the
invariant still holds: per-question totals sum to the theme total and
correct never exceeds total at either level; a reset zeroes the whole
structure (and trivially satisfies the invariant); and the update only
ever increments counters - the answered theme's total grows by exactly
one and no counter anywhere decreases. -/
theorem C4_stats_invariants (d : SessionData) (question_id : Int)
    (is_correct : Bool) (theme : String) (hinv : d.statsInv) :
    (update_question_stats d question_id is_correct theme).statsInv ∧
    (reset_session d).statsInv ∧
    (∀ th, themeCounters (reset_session d) th = freshThemeStats) ∧
    (themeCounters (update_question_stats d question_id is_correct theme) theme).total
      = (themeCounters d theme).total + 1 ∧
    (∀ th, (themeCounters d th).total ≤
        (themeCounters (update_question_stats d question_id is_correct theme) th).total ∧
      (themeCounters d th).correct ≤
        (themeCounters (update_question_stats d question_id is_correct theme) th).correct) ∧
    (∀ th qid, (questionCounters d th qid).total ≤
        (questionCounters (update_question_stats d question_id is_correct theme) th qid).total ∧
      (questionCounters d th qid).correct ≤
        (questionCounters (update_question_stats d question_id is_correct theme) th qid).correct) := by
  have hb : (if is_correct then 1 else 0) ≤ 1 := by
    cases is_correct <;> simp
  have hinv0 : ThemeStats.inv (themeCounters d theme) := by
    unfold themeCounters
    cases hget : alistGet d.themeStatsD theme with
    | none => simp [freshThemeStats, ThemeStats.inv]
    | some w =>
        simp only [Option.getD_some]
        exact hinv (theme, w) (alistGet_mem _ _ _ hget)
  obtain ⟨hsum0, hcle0, hq0le⟩ := hinv0
  have hqc0 : (questionCounters d theme (toString question_id)).correct ≤
      (questionCounters d theme (toString question_id)).total := by
    unfold questionCounters
    cases hqget : alistGet (themeCounters d theme).question_stats
        (toString question_id) with
    | none => simp
    | some w =>
        simp only [Option.getD_some]
        exact hq0le (toString question_id, w) (alistGet_mem _ _ _ hqget)
  have hq1c : (bumpedQStats d question_id is_correct theme).correct ≤
      (bumpedQStats d question_id is_correct theme).total := by
    show (questionCounters d theme (toString question_id)).correct +
        (if is_correct then 1 else 0) ≤
      (questionCounters d theme (toString question_id)).total + 1
    omega
  have hsum1 : ((bumpedThemeStats d question_id is_correct theme).question_stats.map
      (fun p => p.2.total)).sum = (bumpedThemeStats d question_id is_correct theme).total := by
    show ((alistSet (themeCounters d theme).question_stats (toString question_id)
        (bumpedQStats d question_id is_correct theme)).map (fun p => p.2.total)).sum =
      (themeCounters d theme).total + 1
    cases hqget : alistGet (themeCounters d theme).question_stats
        (toString question_id) with
    | none =>
        have hσ : ((alistSet (themeCounters d theme).question_stats (toString question_id)
              (bumpedQStats d question_id is_correct theme)).map (fun p => p.2.total)).sum =
            ((themeCounters d theme).question_stats.map (fun p => p.2.total)).sum +
              (bumpedQStats d question_id is_correct theme).total :=
          alistSet_map_sum_none (fun s => s.total) _ _ _ hqget
        have hq00 : (questionCounters d theme (toString question_id)).total = 0 := by
          unfold questionCounters
          rw [hqget]
          rfl
        have hbt : (bumpedQStats d question_id is_correct theme).total =
            (questionCounters d theme (toString question_id)).total + 1 := rfl
        omega
    | some w =>
        have hσ : ((alistSet (themeCounters d theme).question_stats (toString question_id)
              (bumpedQStats d question_id is_correct theme)).map (fun p => p.2.total)).sum +
              w.total =
            ((themeCounters d theme).question_stats.map (fun p => p.2.total)).sum +
              (bumpedQStats d question_id is_correct theme).total :=
          alistSet_map_sum_some (fun s => s.total) _ _ _ w hqget
        have hq0w : (questionCounters d theme (toString question_id)).total = w.total := by
          unfold questionCounters
          rw [hqget]
          rfl
        have hbt : (bumpedQStats d question_id is_correct theme).total =
            (questionCounters d theme (toString question_id)).total + 1 := rfl
        omega
  have hinv1 : ThemeStats.inv (bumpedThemeStats d question_id is_correct theme) := by
    refine ⟨hsum1, ?_, ?_⟩
    · show (themeCounters d theme).correct + (if is_correct then 1 else 0) ≤
        (themeCounters d theme).total + 1
      omega
    · intro p hp
      have hp2 : p ∈ alistSet (themeCounters d theme).question_stats
          (toString question_id) (bumpedQStats d question_id is_correct theme) := hp
      rcases mem_alistSet _ _ _ _ hp2 with hpe | hm
      · rw [hpe]
        exact hq1c
      · exact hq0le p hm
  refine ⟨?_, ?_, ?_, ?_, ?_, ?_⟩
  · intro p hp
    rw [show (update_question_stats d question_id is_correct theme).themeStatsD =
        alistSet d.themeStatsD theme (bumpedThemeStats d question_id is_correct theme)
        from rfl] at hp
    rcases mem_alistSet _ _ _ _ hp with hpe | hm
    · rw [hpe]
      exact hinv1
    · exact hinv p hm
  · intro p hp
    simp [reset_session, SessionData.empty, SessionData.themeStatsD] at hp
  · intro th
    rfl
  · rw [themeCounters_update_self]
    rfl
  · intro th
    by_cases hth : th = theme
    · subst hth
      rw [themeCounters_update_self]
      exact ⟨Nat.le_succ _, Nat.le_add_right _ _⟩
    · rw [themeCounters_update_other _ _ _ _ _ hth]
      exact ⟨le_refl _, le_refl _⟩
  · intro th qid
    by_cases hth : th = theme
    · rw [hth]
      unfold questionCounters
      rw [themeCounters_update_self]
      rw [show (bumpedThemeStats d question_id is_correct theme).question_stats =
          alistSet (themeCounters d theme).question_stats (toString question_id)
            (bumpedQStats d question_id is_correct theme) from rfl]
      by_cases hqid : qid = toString question_id
      · subst hqid
        rw [alistGet_alistSet_self]
        exact ⟨Nat.le_succ _, Nat.le_add_right _ _⟩
      · rw [alistGet_alistSet_ne _ _ _ _ hqid]
        exact ⟨le_refl _, le_refl _⟩
    · unfold questionCounters
      rw [themeCounters_update_other _ _ _ _ _ hth]
      exact ⟨le_refl _, le_refl _⟩

/-- C4 witness: one correct answer recorded into a fresh session. -/
theorem C4_stats_invariants_witness :
    (update_question_stats SessionData.empty 1 true "cardio").statsInv ∧
    (reset_session SessionData.empty).statsInv ∧
    (∀ th, themeCounters (reset_session SessionData.empty) th = freshThemeStats) ∧
    (themeCounters (update_question_stats SessionData.empty 1 true "cardio") "cardio").total
      = (themeCounters SessionData.empty "cardio").total + 1 ∧
    (∀ th, (themeCounters SessionData.empty th).total ≤
        (themeCounters (update_question_stats SessionData.empty 1 true "cardio") th).total ∧
      (themeCounters SessionData.empty th).correct ≤
        (themeCounters (update_question_stats SessionData.empty 1 true "cardio") th).correct) ∧
    (∀ th qid, (questionCounters SessionData.empty th qid).total ≤
        (questionCounters (update_question_stats SessionData.empty 1 true "cardio") th qid).total ∧
      (questionCounters SessionData.empty th qid).correct ≤
        (questionCounters (update_question_stats SessionData.empty 1 true "cardio") th qid).correct) :=
  C4_stats_invariants SessionData.empty 1 true "cardio"
    (by intro p hp; simp [SessionData.themeStatsD, SessionData.empty] at hp)

/-! Helper lemmas for the leaderboard sort. -/

theorem statKeyGt_eq_false_of_eq (a b : StatEntry) (h : statKey a = statKey b) :
    statKeyGt a b = false := by
  simp [statKey, Prod.ext_iff] at h
  simp [statKeyGt]
  omega

theorem rank_ge_of_not_gt (a b : StatEntry) (h : statKeyGt b a = false) :
    b.correct < a.correct ∨ (b.correct = a.correct ∧ b.total ≤ a.total) := by
  simp [statKeyGt] at h
  omega

theorem rank_ge_of_gt (a b : StatEntry) (h : statKeyGt a b = true) :
    b.correct < a.correct ∨ (b.correct = a.correct ∧ b.total ≤ a.total) := by
  simp [statKeyGt] at h
  omega

theorem rank_ge_trans (a b c : StatEntry)
    (h1 : b.correct < a.correct ∨ (b.correct = a.correct ∧ b.total ≤ a.total))
    (h2 : c.correct < b.correct ∨ (c.correct = b.correct ∧ c.total ≤ b.total)) :
    c.correct < a.correct ∨ (c.correct = a.correct ∧ c.total ≤ a.total) := by
  omega

theorem mem_insertStatDesc (x y : StatEntry) (ys : List StatEntry)
    (h : y ∈ insertStatDesc x ys) : y = x ∨ y ∈ ys := by
  induction ys with
  | nil => simpa [insertStatDesc] using h
  | cons z zs ih =>
      by_cases hz : statKeyGt z x = true
      · simp [insertStatDesc, hz] at h
        rcases h with h | h
        · exact Or.inr (by simp [h])
        · rcases ih h with h2 | h2
          · exact Or.inl h2
          · exact Or.inr (List.mem_cons_of_mem _ h2)
      · simp [insertStatDesc, hz] at h
        rcases h with h | h | h
        · exact Or.inl h
        · exact Or.inr (by simp [h])
        · exact Or.inr (List.mem_cons_of_mem _ h)

theorem insertStatDesc_perm (x : StatEntry) (ys : List StatEntry) :
    (insertStatDesc x ys).Perm (x :: ys) := by
  induction ys with
  | nil => simp [insertStatDesc]
  | cons z zs ih =>
      by_cases hz : statKeyGt z x = true
      · simp only [insertStatDesc, hz, if_true]
        exact (ih.cons z).trans (List.Perm.swap x z zs)
      · simp only [insertStatDesc, hz, if_false]
        exact List.Perm.refl _

theorem pairwise_insertStatDesc (x : StatEntry) (ys : List StatEntry)
    (h : ys.Pairwise (fun a b =>
      b.correct < a.correct ∨ (b.correct = a.correct ∧ b.total ≤ a.total))) :
    (insertStatDesc x ys).Pairwise (fun a b =>
      b.correct < a.correct ∨ (b.correct = a.correct ∧ b.total ≤ a.total)) := by
  induction ys with
  | nil => simp [insertStatDesc]
  | cons z zs ih =>
      rcases List.pairwise_cons.mp h with ⟨hz, hzs⟩
      by_cases hgt : statKeyGt z x = true
      · simp only [insertStatDesc, hgt, if_true]
        refine List.pairwise_cons.mpr ⟨?_, ih hzs⟩
        intro y hy
        rcases mem_insertStatDesc x y zs hy with rfl | hmem
        · exact rank_ge_of_gt z y hgt
        · exact hz y hmem
      · simp only [insertStatDesc, hgt, if_false]
        refine List.pairwise_cons.mpr ⟨?_, h⟩
        intro y hy
        have hxz := rank_ge_of_not_gt x z (by simpa using hgt)
        rcases List.mem_cons.mp hy with rfl | hmem
        · exact hxz
        · exact rank_ge_trans x z y hxz (hz y hmem)

theorem sortStatsDesc_perm (l : List StatEntry) : (sortStatsDesc l).Perm l := by
  induction l with
  | nil => simp [sortStatsDesc]
  | cons x xs ih =>
      exact (insertStatDesc_perm x (sortStatsDesc xs)).trans (ih.cons x)

theorem sortStatsDesc_pairwise (l : List StatEntry) :
    (sortStatsDesc l).Pairwise (fun a b =>
      b.correct < a.correct ∨ (b.correct = a.correct ∧ b.total ≤ a.total)) := by
  induction l with
  | nil => simp [sortStatsDesc]
  | cons x xs ih => exact pairwise_insertStatDesc x _ ih

theorem filter_insertStatDesc (x : StatEntry) (ys : List StatEntry) (k : Nat × Nat) :
    (insertStatDesc x ys).filter (fun e => statKey e == k) =
      if statKey x == k then x :: ys.filter (fun e => statKey e == k)
      else ys.filter (fun e => statKey e == k) := by
  induction ys with
  | nil =>
      by_cases hxk : statKey x = k
      · simp [insertStatDesc, hxk]
      · simp [insertStatDesc, hxk]
  | cons z zs ih =>
      by_cases hgt : statKeyGt z x = true
      · have hzk : statKey x = k → statKey z ≠ k := by
          intro hxk hzz
          have : statKey z = statKey x := by rw [hzz, hxk]
          rw [statKeyGt_eq_false_of_eq z x this] at hgt
          simp at hgt
        simp only [insertStatDesc, hgt, if_true]
        by_cases hxk : statKey x = k
        · have hz2 : (statKey z == k) = false := by
            simp [hzk hxk]
          simp [List.filter, hz2, ih, hxk]
        · have hx2 : (statKey x == k) = false := by simp [hxk]
          simp only [List.filter_cons, ih, hx2, if_neg hxk]
          simp
      · simp only [insertStatDesc, hgt, if_false]
        by_cases hxk : statKey x = k
        · simp [List.filter_cons, hxk]
        · simp [List.filter_cons, hxk]

theorem filter_sortStatsDesc (l : List StatEntry) (k : Nat × Nat) :
    (sortStatsDesc l).filter (fun e => statKey e == k) =
      l.filter (fun e => statKey e == k) := by
  induction l with
  | nil => rfl
  | cons x xs ih =>
      show (insertStatDesc x (sortStatsDesc xs)).filter _ = _
      rw [filter_insertStatDesc]
      by_cases hxk : statKey x = k
      · simp [List.filter_cons, hxk, ih]
      · simp [List.filter_cons, hxk, ih]

theorem find_user_position_spec (stats : List StatEntry) (uid : String) (i : Nat)
    (h : find_user_position stats uid = some i) :
    1 ≤ i ∧ ∃ e, stats.get? (i - 1) = some e ∧ e.user_id = uid := by
  induction stats generalizing i with
  | nil => simp [find_user_position] at h
  | cons e rest ih =>
      by_cases he : e.user_id = uid
      · simp [find_user_position, he] at h
        refine ⟨by omega, e, ?_, he⟩
        rw [← h]
        rfl
      · simp [find_user_position, he] at h
        obtain ⟨j, hj, hij⟩ := h
        obtain ⟨hj1, e2, hge, hid⟩ := ih j hj
        refine ⟨by omega, e2, ?_, hid⟩
        rw [← hij]
        have h2 : j + 1 - 1 = j := by omega
        rw [h2]
        cases j with
        | zero => omega
        | succ jj =>
            simpa using hge

end Ausc

namespace Ausc

/-- C8: the leaderboard of get_global_stats, for one theme or all themes
summed, lists only users with a positive total, is sorted by (correct
descending, then total descending), is a permutation of the eligible
entries, leaves entries with equal keys in input order (stability of
Python's sorted with reverse=True), finds a user's own rank by matching
user_id, and ranks bob (9/12) above alice (8/10) despite alice's higher
percentage. -/
theorem C8_leaderboard (sessions : List (String × SessionData)) (theme : Option String) :
    (∀ e ∈ get_global_stats sessions theme, 0 < e.total) ∧
    (get_global_stats sessions theme).Pairwise (fun a b =>
      b.correct < a.correct ∨ (b.correct = a.correct ∧ b.total ≤ a.total)) ∧
    (get_global_stats sessions theme).Perm (global_stat_entries sessions theme) ∧
    (∀ k : Nat × Nat, (get_global_stats sessions theme).filter
        (fun e => statKey e == k) =
      (global_stat_entries sessions theme).filter (fun e => statKey e == k)) ∧
    (∀ uid i, find_user_position (get_global_stats sessions theme) uid = some i →
      1 ≤ i ∧ ∃ e, (get_global_stats sessions theme).get? (i - 1) = some e ∧
        e.user_id = uid) ∧
    (get_global_stats sessionsAliceBob (some "cardio") =
        [⟨"2", "bob", 12, 9⟩, ⟨"1", "alice", 10, 8⟩] ∧
      get_global_stats sessionsAliceBob none =
        [⟨"2", "bob", 12, 9⟩, ⟨"1", "alice", 10, 8⟩]) := by
  refine ⟨?_, sortStatsDesc_pairwise _, sortStatsDesc_perm _,
    (fun k => filter_sortStatsDesc _ k), (fun uid i h => find_user_position_spec _ uid i h),
    rfl, rfl⟩
  intro e he
  have hm : e ∈ global_stat_entries sessions theme :=
    (sortStatsDesc_perm _).mem_iff.mp he
  simp only [global_stat_entries, List.mem_filterMap] at hm
  obtain ⟨⟨uid, dd⟩, _, hge⟩ := hm
  unfold global_stat_entry at hge
  cases theme with
  | some t =>
      by_cases hpos : 0 < ((alistGet dd.themeStatsD t).getD freshThemeStats).total
      · simp only [hpos, if_true, Option.some.injEq] at hge
        rw [← hge]
        exact hpos
      · simp only [hpos, if_false] at hge
        simp at hge
  | none =>
      by_cases hpos : 0 < ((dd.themeStatsD.map (fun p => p.2.total)).sum)
      · simp only [hpos, if_true, Option.some.injEq] at hge
        rw [← hge]
        exact hpos
      · simp only [hpos, if_false] at hge
        simp at hge

/-- C8 witness: the two-user leaderboard, with bob's entry positive and
alice found at rank 2 by id. -/
theorem C8_leaderboard_witness :
    0 < (⟨"2", "bob", 12, 9⟩ : StatEntry).total ∧
    (1 ≤ 2 ∧ ∃ e, (get_global_stats sessionsAliceBob none).get? (2 - 1) = some e ∧
      e.user_id = "1") :=
  ⟨(C8_leaderboard sessionsAliceBob none).1 ⟨"2", "bob", 12, 9⟩ (by decide),
   (C8_leaderboard sessionsAliceBob none).2.2.2.2.1 "1" 2 (by decide)⟩

/-! Helper lemmas for the session-document round trip. -/

theorem asNat_num (n : Nat) : Json.asNat (Json.num (n : ℚ)) = some n := by
  simp [Json.asNat, Rat.den_natCast, Rat.num_natCast]

theorem asInt_num (n : Int) : Json.asInt (Json.num (n : ℚ)) = some n := by
  simp [Json.asInt, Rat.den_intCast, Rat.num_intCast]

theorem asStrList_map (l : List String) :
    Json.asStrList (Json.arr (l.map Json.str)) = some l := by
  simp only [Json.asStrList]
  induction l with
  | nil => rfl
  | cons a rest ih =>
      simp only [List.map_cons, List.mapM_cons, ih, Json.asStr, Option.pure_def,
        Option.bind_eq_bind, Option.some_bind]

theorem qstats_roundtrip (s : QStats) :
    QStats.fromJson (QStats.toJson s) = some s := by
  simp [QStats.toJson, QStats.fromJson, alistGet, asNat_num]

theorem qstatsList_roundtrip (m : List (String × QStats)) :
    qstatsListFromJson (qstatsListToJson m) = some m := by
  simp only [qstatsListToJson, qstatsListFromJson]
  induction m with
  | nil => rfl
  | cons p rest ih =>
      simp only [List.map_cons, List.mapM_cons, ih, qstats_roundtrip,
        Option.pure_def, Option.bind_eq_bind, Option.some_bind, Option.map_some]
      rfl

theorem themestats_roundtrip (ts : ThemeStats) :
    ThemeStats.fromJson (ThemeStats.toJson ts) = some ts := by
  simp [ThemeStats.toJson, ThemeStats.fromJson, alistGet, asNat_num,
    qstatsList_roundtrip]

theorem themeStatsList_roundtrip (m : List (String × ThemeStats)) :
    themeStatsListFromJson (themeStatsListToJson m) = some m := by
  simp only [themeStatsListToJson, themeStatsListFromJson]
  induction m with
  | nil => rfl
  | cons p rest ih =>
      simp only [List.map_cons, List.mapM_cons, ih, themestats_roundtrip,
        Option.pure_def, Option.bind_eq_bind, Option.some_bind, Option.map_some]
      rfl

theorem lastquestion_roundtrip (lq : LastQuestion) :
    LastQuestion.fromJson (LastQuestion.toJson lq) = some lq := by
  cases hf : lq.file with
  | none =>
      simp [LastQuestion.toJson, LastQuestion.fromJson, alistGet, asInt_num,
        asNat_num, asStrList_map, Json.asStr, Json.asOptStr, hf]
      rw [← hf]
  | some f =>
      simp [LastQuestion.toJson, LastQuestion.fromJson, alistGet, asInt_num,
        asNat_num, asStrList_map, Json.asStr, Json.asOptStr, hf]
      rw [← hf]

/-- C9: serializing any UserSession data dict - including one holding a
non-null pending last_question - to its JSON document and deserializing
it back yields the identical structure. -/
theorem C9_session_roundtrip (d : SessionData) :
    SessionData.fromJson (SessionData.toJson d) = some d := by
  obtain ⟨uid, uname, lu, ct, lq, ts⟩ := d
  cases uid <;> cases uname <;> cases lu <;> cases ct <;> cases lq <;> cases ts <;>
    simp [SessionData.toJson, SessionData.fromJson, optField, getOptField, alistGet,
      asInt_num, Json.asStr, Json.asRat, lastquestion_roundtrip,
      themeStatsList_roundtrip]

end Ausc
